import Mathlib

/-!
Shallow embedding of the catalyst Bittrex exchange gateway
(src/catalyst/exchange/bittrex/bittrex.py) and of the bundle utilities
(src/catalyst/exchange/bundle_utils.py).

Remote I/O is embedded by passing the remote's response (or the transport
failure) as an explicit argument, and every operation additionally returns
the list of external effects it performed, in order: invocations of the
rate limiter (self.ask_request()) and the individual remote requests.
Python floats are embedded as exact rationals, timestamps and datetime-like
strings as opaque strings, and an uncaught Python runtime error
(IndexError, TypeError, KeyError, NameError) as a None result.
-/

namespace Catalyst

/-- Results of fallible operations are compared up to decidable equality. -/
instance {ε α : Type} [DecidableEq ε] [DecidableEq α] :
    DecidableEq (Except ε α) := fun x y =>
  match x, y with
  | Except.ok a, Except.ok b =>
    match decEq a b with
    | isTrue h => isTrue (congrArg Except.ok h)
    | isFalse h => isFalse (fun hh => h (Except.ok.inj hh))
  | Except.error a, Except.error b =>
    match decEq a b with
    | isTrue h => isTrue (congrArg Except.error h)
    | isFalse h => isFalse (fun hh => h (Except.error.inj hh))
  | Except.ok _, Except.error _ => isFalse (fun hh => Except.noConfusion hh)
  | Except.error _, Except.ok _ => isFalse (fun hh => Except.noConfusion hh)

/-- catalyst.finance.order.ORDER_STATUS (the values the gateway assigns). -/
inductive OrderStatusTag where
  | OPEN
  | FILLED
  | CANCELLED
  deriving DecidableEq

/-- catalyst.finance.order.Order, restricted to the fields the Bittrex
gateway sets.  A freshly constructed Order has filled = 0, no commission
and status OPEN; the constructor arguments that the gateway passes
explicitly are embedded as the corresponding fields. -/
structure Order where
  dt : String
  asset : String
  amount : Rat
  stop : Option Rat
  limit : Option Rat
  filled : Rat
  id : String
  commission : Option Rat
  status : OrderStatusTag
  deriving DecidableEq

/-- A Bittrex order-status record, as consumed by Bittrex._create_order. -/
structure BittrexOrderRecord where
  CancelInitiated : Bool
  Closed : Option String
  Opened : String
  Quantity : Rat
  QuantityRemaining : Rat
  Exchange : String
  Limit : Option Rat
  OrderUuid : String
  CommissionPaid : Rat
  PricePerUnit : Option Rat
  deriving DecidableEq

/-- The value Bittrex_api.buylimit / selllimit return: either a JSON object
(whose only field the gateway reads is the optional uuid key) or a bare
string such as INSUFFICIENT_FUNDS. -/
inductive BittrexApiResult where
  | obj (uuid : Option String)
  | str (s : String)
  deriving DecidableEq

/-- The gateway's error taxonomy (catalyst.exchange.exchange_errors). -/
inductive ExchangeError where
  | exchangeRequestError (error : String)
  | invalidHistoryFrequencyError (frequency : String)
  | invalidOrderStyle (exchange style : String)
  | orderNotFound (order_id exchange : String)
  | orderCancelError (order_id exchange error : String)
  | createOrderError (exchange : String) (error : BittrexApiResult)
  | valueError (msg : String)
  deriving DecidableEq

/-- External effects a gateway operation performs, in program order.
askRequest is the rate limiter acquisition (Exchange.ask_request); every
other constructor is one remote request. -/
inductive Effect where
  | askRequest
  | apiGetBalances
  | apiBuyLimit (symbol : String)
  | apiSellLimit (symbol : String)
  | apiGetOpenOrders (symbol : String)
  | apiGetOrder (order_id : String)
  | apiCancel (order_id : String)
  | httpGetTicks (symbol interval : String)
  | apiGetTicker (symbol : String)
  | apiGetOrderBook (market typ : String) (depth : Nat)
  deriving DecidableEq

/-- Scans an effect trace and checks that every remote request is preceded
by a rate-limiter acquisition; the flag records whether an askRequest has
already been seen. -/
def rateLimited : Bool → List Effect → Bool
  | _, [] => true
  | _, Effect.askRequest :: tl => rateLimited true tl
  | armed, _ :: tl => armed && rateLimited armed tl

/-- Whether an effect trace contains a rate-limiter acquisition. -/
def hasAsk : List Effect → Bool
  | [] => false
  | Effect.askRequest :: _ => true
  | _ :: t => hasAsk t

/-- Bittrex._create_order: reconstructs a catalyst Order from a Bittrex
order-status record and pairs it with the executed price.  The assets
argument embeds the self.assets dictionary keyed by exchange symbol. -/
def _create_order (assets : String → String) (r : BittrexOrderRecord) :
    Order × Option Rat :=
  let status :=
    if r.CancelInitiated then OrderStatusTag.CANCELLED
    else if r.Closed.isSome then OrderStatusTag.FILLED
    else OrderStatusTag.OPEN
  let amount := r.Quantity
  let order : Order :=
    { dt := r.Opened
      asset := assets r.Exchange
      amount := amount
      stop := none
      limit := r.Limit
      filled := amount - r.QuantityRemaining
      id := r.OrderUuid
      commission := some r.CommissionPaid
      status := status }
  (order, r.PricePerUnit)

/-- Bittrex.get_balances.  The response is the remote's list of balance
records, each read as its Currency and Available fields; a transport
failure is wrapped into ExchangeRequestError. -/
def get_balances (resp : Except String (List (String × Rat))) :
    Except ExchangeError (List (String × Rat)) × List Effect :=
  let tr := [Effect.askRequest, Effect.apiGetBalances]
  match resp with
  | Except.error e => (Except.error (ExchangeError.exchangeRequestError e), tr)
  | Except.ok balances =>
      (Except.ok (balances.map (fun b => (b.1.toLower, b.2))), tr)

/-- Bittrex.get_open_orders: one reconstructed value per remote record, in
the remote's order.  Note the element type: the code appends the result of
_create_order, which is an (Order, executed price) pair. -/
def get_open_orders (assets : String → String) (symbol : String)
    (resp : Except String (List BittrexOrderRecord)) :
    Except ExchangeError (List (Order × Option Rat)) × List Effect :=
  let tr := [Effect.askRequest, Effect.apiGetOpenOrders symbol]
  match resp with
  | Except.error e => (Except.error (ExchangeError.exchangeRequestError e), tr)
  | Except.ok recs => (Except.ok (recs.map (_create_order assets)), tr)

/-- Bittrex.get_order: a missing order yields OrderNotFound. -/
def get_order (assets : String → String) (order_id : String)
    (resp : Except String (Option BittrexOrderRecord)) :
    Except ExchangeError (Order × Option Rat) × List Effect :=
  let tr := [Effect.askRequest, Effect.apiGetOrder order_id]
  match resp with
  | Except.error e => (Except.error (ExchangeError.exchangeRequestError e), tr)
  | Except.ok none =>
      (Except.error (ExchangeError.orderNotFound order_id "bittrex"), tr)
  | Except.ok (some r) => (Except.ok (_create_order assets r), tr)

/-- Bittrex.cancel_order: accepts an Order or a bare id; a response
carrying a message key is a rejected cancellation. -/
def cancel_order (order_param : Order ⊕ String)
    (resp : Except String (Option String)) :
    Except ExchangeError Unit × List Effect :=
  let order_id := match order_param with
    | Sum.inl o => o.id
    | Sum.inr s => s
  let tr := [Effect.askRequest, Effect.apiCancel order_id]
  match resp with
  | Except.error e => (Except.error (ExchangeError.exchangeRequestError e), tr)
  | Except.ok (some msg) =>
      (Except.error (ExchangeError.orderCancelError order_id "bittrex" msg), tr)
  | Except.ok none => (Except.ok (), tr)

/-- The order styles create_order distinguishes by isinstance checks
(catalyst.finance.execution); marketOrder stands for any other style. -/
inductive OrderStyle where
  | limitOrder (limit_price : Rat)
  | stopLimitOrder (limit_price stop_price : Rat)
  | marketOrder
  deriving DecidableEq

/-- style.get_limit_price(is_buy): the style's limit price. -/
def get_limit_price (style : OrderStyle) (_is_buy : Bool) : Option Rat :=
  match style with
  | OrderStyle.limitOrder p => some p
  | OrderStyle.stopLimitOrder p _ => some p
  | OrderStyle.marketOrder => none

/-- style.get_stop_price(is_buy): only stop-limit styles carry one. -/
def get_stop_price (style : OrderStyle) (_is_buy : Bool) : Option Rat :=
  match style with
  | OrderStyle.stopLimitOrder _ s => some s
  | _ => none

/-- style.__class__.__name__, as used in the InvalidOrderStyle payload. -/
def styleName : OrderStyle → String
  | OrderStyle.limitOrder _ => "LimitOrder"
  | OrderStyle.stopLimitOrder _ _ => "StopLimitOrder"
  | OrderStyle.marketOrder => "MarketOrder"

/-- The isinstance(style, LimitOrder) or isinstance(style, StopLimitOrder)
test of create_order. -/
def isLimitStyle : OrderStyle → Bool
  | OrderStyle.marketOrder => false
  | _ => true

/-- Python substring containment (the in operator on strings). -/
def strContains (hay needle : List Char) : Bool :=
  List.isPrefixOf needle hay ||
    match hay with
    | [] => false
    | _ :: t => strContains t needle

/-- The Python test uuid in order_status: key membership on an object,
substring containment on a string response. -/
def uuidIn : BittrexApiResult → Bool
  | BittrexApiResult.obj u => u.isSome
  | BittrexApiResult.str s => strContains s.data "uuid".data

/-- Bittrex.create_order.  now embeds pd.Timestamp.utcnow(); asset and
symbol are the trading pair and its exchange symbol; resp is what the
buylimit / selllimit call returns (or the transport failure).  ok none is
the soft-decline result (the Python function returns None); a None overall
result is the uncaught TypeError raised when a bare-string response
containing uuid as a substring is indexed like a dictionary. -/
def create_order (now asset symbol : String) (amount : Rat) (is_buy : Bool)
    (style : OrderStyle) (resp : Except String BittrexApiResult) :
    Option (Except ExchangeError (Option Order)) × List Effect :=
  match style with
  | OrderStyle.marketOrder =>
      (some (Except.error
        (ExchangeError.invalidOrderStyle "bittrex" (styleName style))), [])
  | _ =>
    let tr : List Effect :=
      if is_buy then [Effect.askRequest, Effect.apiBuyLimit symbol]
      else [Effect.askRequest, Effect.apiSellLimit symbol]
    match resp with
    | Except.error e =>
        (some (Except.error (ExchangeError.exchangeRequestError e)), tr)
    | Except.ok order_status =>
      if uuidIn order_status then
        match order_status with
        | BittrexApiResult.obj (some order_id) =>
            (some (Except.ok (some
              { dt := now
                asset := asset
                amount := amount
                stop := get_stop_price style is_buy
                limit := get_limit_price style is_buy
                filled := 0
                id := order_id
                commission := none
                status := OrderStatusTag.OPEN })), tr)
        | _ => (none, tr)
      else if order_status == BittrexApiResult.str "INSUFFICIENT_FUNDS" then
        (some (Except.ok none), tr)
      else if order_status ==
          BittrexApiResult.str "DUST_TRADE_DISALLOWED_MIN_VALUE_50K_SAT" then
        (some (Except.ok none), tr)
      else
        (some (Except.error
          (ExchangeError.createOrderError "bittrex" order_status)), tr)

/-- One remote ticker record (Bid / Ask / Last fields). -/
structure TickerRec where
  Bid : Rat
  Ask : Rat
  Last : Rat
  deriving DecidableEq

/-- The canonical Ticker the gateway builds. -/
structure Ticker where
  timestamp : String
  bid : Rat
  ask : Rat
  last_price : Rat
  deriving DecidableEq

/-- Bittrex.tickers: one rate-limited remote call per asset; the first
transport failure aborts the loop wrapped as ExchangeRequestError. -/
def tickers (now : String) (fetch : String → Except String TickerRec) :
    List String → Except ExchangeError (List (String × Ticker)) × List Effect
  | [] => (Except.ok [], [])
  | sym :: rest =>
    match fetch sym with
    | Except.error e =>
        (Except.error (ExchangeError.exchangeRequestError e),
          [Effect.askRequest, Effect.apiGetTicker sym])
    | Except.ok t =>
      match tickers now fetch rest with
      | (Except.error err, tr) =>
          (Except.error err,
            Effect.askRequest :: Effect.apiGetTicker sym :: tr)
      | (Except.ok acc, tr) =>
          (Except.ok ((sym, ⟨now, t.Bid, t.Ask, t.Last⟩) :: acc),
            Effect.askRequest :: Effect.apiGetTicker sym :: tr)

/-- One raw GetTicks candle (fields O, H, L, C, V and the timestamp T,
embedded as a number so that candle ordering is expressible). -/
structure RawCandle where
  O : Rat
  H : Rat
  L : Rat
  C : Rat
  V : Rat
  T : Nat
  deriving DecidableEq

/-- The canonical OHLCV bar built by ohlc_from_candle. -/
structure OhlcBar where
  open_ : Rat
  high : Rat
  low : Rat
  close : Rat
  volume : Rat
  price : Rat
  last_traded : Nat
  deriving DecidableEq

/-- ohlc_from_candle inside Bittrex.get_candles: price is the close and
last_traded the parsed timestamp. -/
def ohlc_from_candle (c : RawCandle) : OhlcBar :=
  ⟨c.O, c.H, c.L, c.C, c.V, c.C, c.T⟩

/-- The per-asset value get_candles stores: one bar when bar_count is
absent, a list of bars otherwise. -/
inductive CandlesOut where
  | single (c : OhlcBar)
  | bars (cs : List OhlcBar)
  deriving DecidableEq

/-- The decoded GetTicks response body: a message field (empty on success)
and the candle list. -/
structure GetTicksData where
  message : String
  result : List RawCandle
  deriving DecidableEq

/-- The frequency-token lookup chain at the top of get_candles. -/
def freqToInterval (data_frequency : String) : Option String :=
  if data_frequency = "minute" || data_frequency = "1m" then some "oneMin"
  else if data_frequency = "5m" then some "fiveMin"
  else if data_frequency = "30m" then some "thirtyMin"
  else if data_frequency = "1h" then some "hour"
  else if data_frequency = "daily" || data_frequency = "1D" then some "day"
  else none

/-- The candle post-processing of get_candles: reverse the remote list,
then either take element 0 (bar_count absent; IndexError, embedded as
none, if the list is empty) or take the first bar_count elements. -/
def processCandles (candles : List RawCandle) (bar_count : Option Nat) :
    Option CandlesOut :=
  let ordered_candles := candles.reverse
  match bar_count with
  | none =>
    match ordered_candles with
    | [] => none
    | c :: _ => some (CandlesOut.single (ohlc_from_candle c))
  | some k =>
      some (CandlesOut.bars ((ordered_candles.take k).map ohlc_from_candle))

/-- The per-asset loop of get_candles: one plain HTTP request per asset
(no rate-limiter acquisition in the source), transport failures wrapped,
a truthy message field rejected. -/
def get_candles_loop (interval : String)
    (fetch : String → Except String GetTicksData) (bar_count : Option Nat) :
    List String →
      Option (Except ExchangeError (List (String × CandlesOut))) × List Effect
  | [] => (some (Except.ok []), [])
  | sym :: rest =>
    let e := Effect.httpGetTicks sym interval
    match fetch sym with
    | Except.error err =>
        (some (Except.error (ExchangeError.exchangeRequestError err)), [e])
    | Except.ok data =>
      if data.message = "" then
        match processCandles data.result bar_count with
        | none => (none, [e])
        | some out =>
          match get_candles_loop interval fetch bar_count rest with
          | (none, tr) => (none, e :: tr)
          | (some (Except.error err), tr) =>
              (some (Except.error err), e :: tr)
          | (some (Except.ok acc), tr) =>
              (some (Except.ok ((sym, out) :: acc)), e :: tr)
      else
        (some (Except.error (ExchangeError.exchangeRequestError
          ("Unable to fetch candles " ++ data.message))), [e])

/-- The assets argument of get_candles: a single TradingPair or a list. -/
inductive AssetsArg where
  | single (sym : String)
  | multiple (syms : List String)
  deriving DecidableEq

/-- get_candles result: the single asset's value, or the asset map. -/
inductive CandlesResult where
  | forOne (c : CandlesOut)
  | forMany (m : List (String × CandlesOut))
  deriving DecidableEq

/-- Bittrex.get_candles.  Unsupported frequency tokens fail before any
remote request; for a single asset the loop's map is indexed at that
asset. -/
def get_candles (data_frequency : String) (assets : AssetsArg)
    (fetch : String → Except String GetTicksData) (bar_count : Option Nat) :
    Option (Except ExchangeError CandlesResult) × List Effect :=
  match freqToInterval data_frequency with
  | none =>
      (some (Except.error
        (ExchangeError.invalidHistoryFrequencyError data_frequency)), [])
  | some interval =>
    let asset_list := match assets with
      | AssetsArg.single s => [s]
      | AssetsArg.multiple ss => ss
    match get_candles_loop interval fetch bar_count asset_list with
    | (none, tr) => (none, tr)
    | (some (Except.error e), tr) => (some (Except.error e), tr)
    | (some (Except.ok m), tr) =>
      match assets with
      | AssetsArg.multiple _ => (some (Except.ok (CandlesResult.forMany m)), tr)
      | AssetsArg.single s =>
        match m.lookup s with
        | some v => (some (Except.ok (CandlesResult.forOne v)), tr)
        | none => (none, tr)

/-- The remote returns candles newest-first: non-increasing timestamps. -/
def newestFirst (l : List RawCandle) : Prop :=
  List.Sorted (fun a b : RawCandle => b.T ≤ a.T) l

instance (l : List RawCandle) : Decidable (newestFirst l) := by
  unfold newestFirst List.Sorted; infer_instance

/-- One remote order-book entry (Rate / Quantity fields). -/
structure BookEntry where
  Rate : Rat
  Quantity : Rat
  deriving DecidableEq

/-- The order_type translation at the top of get_orderbook; none embeds
the ValueError branch. -/
def translateSide (order_type : String) : Option String :=
  if order_type = "all" then some "both"
  else if order_type = "bid" then some "buy"
  else if order_type = "ask" then some "sell"
  else none

/-- Assignment into the Python result dictionary (overwrite an existing
key, append a new one in insertion order). -/
def setAssoc {α : Type} : List (String × α) → String → α → List (String × α)
  | [], k, v => [(k, v)]
  | (k', v') :: t, k, v =>
      if k' = k then (k, v) :: t else (k', v') :: setAssoc t k v

/-- The response loop of get_orderbook, carrying the reused order_type
variable: buy maps to bids, sell to asks, anything else keeps the
previous value. -/
def bookLoop (order_type : String)
    (result : List (String × List (Rat × Rat))) :
    List (String × List BookEntry) → List (String × List (Rat × Rat))
  | [] => result
  | (exchange_type, entries) :: rest =>
    let order_type' :=
      if exchange_type = "buy" then "bids"
      else if exchange_type = "sell" then "asks"
      else order_type
    bookLoop order_type'
      (setAssoc result order_type' (entries.map (fun en => (en.Rate, en.Quantity))))
      rest

/-- Bittrex.get_orderbook.  The caller-supplied limit argument is accepted
but never read: the remote request always carries depth=100.  The remote
call is issued without any rate-limiter acquisition and outside any
try block, so a transport failure is an uncaught exception (none). -/
def get_orderbook (exchange_symbol order_type : String) (limit : Nat)
    (resp : Except String (List (String × List BookEntry))) :
    Option (Except ExchangeError (List (String × List (Rat × Rat)))) ×
      List Effect :=
  match translateSide order_type with
  | none => (some (Except.error (ExchangeError.valueError "invalid type")), [])
  | some ot =>
    let tr := [Effect.apiGetOrderBook exchange_symbol ot 100]
    match resp with
    | Except.error _ => (none, tr)
    | Except.ok data => (some (Except.ok (bookLoop ot [] data)), tr)

/-! Embedding of src/catalyst/exchange/bundle_utils.py.  Filesystem paths
are strings; the destination directory is an absolute, already-normalized
path and archive member names are relative paths, so os.path.abspath
reduces to os.path.normpath. -/

/-- Splits the character list of a path at every slash. -/
def splitSlashAux : List Char → List Char → List String
  | [], acc => [String.mk acc.reverse]
  | ch :: cs, acc =>
    if ch = '/' then String.mk acc.reverse :: splitSlashAux cs []
    else splitSlashAux cs (ch :: acc)

/-- The components of a path. -/
def splitSlash (s : String) : List String := splitSlashAux s.data []

/-- Rejoins path components with slashes. -/
def joinSlash : List String → String
  | [] => ""
  | [c] => c
  | c :: cs => c ++ "/" ++ joinSlash cs

/-- One component step of Python os.path.normpath on an absolute path:
empty and dot components vanish, dot-dot pops (and is dropped at the
root), anything else is kept. -/
def normStep (acc : List String) (c : String) : List String :=
  if c = "" || c = "." then acc
  else if c = ".." then acc.dropLast
  else acc ++ [c]

/-- os.path.abspath on an absolute path (= os.path.normpath). -/
def abspath (s : String) : String :=
  "/" ++ joinSlash ((splitSlash s).foldl normStep [])

/-- os.path.join with a relative second argument. -/
def joinPath (a b : String) : String := a ++ "/" ++ b

/-- os.path.commonprefix on two strings: their longest common character
prefix (character-wise, not component-wise). -/
def commonPrefixChars : List Char → List Char → List Char
  | a :: as, b :: bs => if a = b then a :: commonPrefixChars as bs else []
  | _, _ => []

/-- os.path.commonprefix([a, b]). -/
def commonprefixStr (a b : String) : String :=
  String.mk (commonPrefixChars a.data b.data)

/-- is_within_directory from get_bcolz_chunk: compares the character-wise
common prefix of the two normalized paths against the directory. -/
def is_within_directory (directory target : String) : Bool :=
  let abs_directory := abspath directory
  let abs_target := abspath target
  commonprefixStr abs_directory abs_target == abs_directory

/-- safe_extract from get_bcolz_chunk: every member is checked before any
extraction; if all pass, extractall writes every member (the ok payload
lists the written paths), otherwise the loop raises and nothing at all is
written. -/
def safe_extract (path : String) (members : List String) :
    Except String (List String) :=
  if members.all (fun m => is_within_directory path (joinPath path m)) then
    Except.ok (members.map (fun m => joinPath path m))
  else
    Except.error "Attempted Path Traversal in Tar File"

/-- Modelled from the spec: the resolved destination path is a descendant
of destination_dir, i.e. after normalization it equals the directory or
lies below it across a path-separator boundary. -/
def isDescendantOf (directory target : String) : Bool :=
  let d := abspath directory
  let t := abspath target
  t == d || List.isPrefixOf (d ++ "/").data t.data

/-- An asset's trading-availability metadata as read by get_adj_dates
(timestamps embedded as integers). -/
structure ExAsset where
  start_date : Int
  end_daily : Option Int
  end_minute : Option Int
  symbol : String
  exchange : String
  deriving DecidableEq

/-- The NoDataAvailableOnExchange payload (the .title() and .encode()
display formatting of the Python raise site is not modelled). -/
structure NoDataError where
  exchange : String
  symbol : List String
  data_frequency : String
  deriving DecidableEq

/-- One iteration of the get_adj_dates loop over assets, updating the
earliest_trade and last_entry accumulators. -/
def adjFold (data_frequency : String) (st : Option Int × Option Int)
    (a : ExAsset) : Option Int × Option Int :=
  let earliest_trade := match st.1 with
    | none => some a.start_date
    | some e => if e > a.start_date then some a.start_date else some e
  let end_asset :=
    if data_frequency = "minute" then a.end_minute else a.end_daily
  let last_entry := match end_asset with
    | none => st.2
    | some v => match st.2 with
      | none => some v
      | some l => if v > l then some v else some l
  (earliest_trade, last_entry)

/-- get_adj_dates.  A None overall result embeds the uncaught Python error
on an empty asset list (the loop variable is unbound at the raise site and
earliest_trade stays None); otherwise the adjusted window or the
NoDataAvailableOnExchange raise. -/
def get_adj_dates (start : Option Int) (end_ : Option Int)
    (assets : List ExAsset) (data_frequency : String) :
    Option (Except NoDataError (Int × Int)) :=
  match assets.getLast? with
  | none => none
  | some asset =>
    let acc := assets.foldl (adjFold data_frequency) (none, none)
    match acc.1 with
    | none => none
    | some earliest_trade =>
      let start' : Int := match start with
        | none => earliest_trade
        | some s => if earliest_trade > s then earliest_trade else s
      let end' : Option Int := match end_ with
        | none => acc.2
        | some e => match acc.2 with
          | none => some e
          | some l => if e > l then some l else some e
      let err : NoDataError :=
        ⟨asset.exchange, [asset.symbol], data_frequency⟩
      match end' with
      | none => some (Except.error err)
      | some e2 =>
        if start' ≥ e2 then some (Except.error err)
        else some (Except.ok (start', e2))

/-- The per-frequency end value of an asset (end_minute for minute data,
end_daily otherwise), as read inside the get_adj_dates loop. -/
def endOf (data_frequency : String) (a : ExAsset) : Option Int :=
  if data_frequency = "minute" then a.end_minute else a.end_daily

/-- Running minimum of start dates. -/
def minStartStep (acc : Option Int) (a : ExAsset) : Option Int :=
  match acc with
  | none => some a.start_date
  | some e => some (min e a.start_date)

/-- Running maximum of end values. -/
def maxEndStep (acc : Option Int) (v : Int) : Option Int :=
  match acc with
  | none => some v
  | some l => some (max l v)

/-- Spec step 1: earliest_trade is the minimum start_date across assets. -/
def earliestTradeSpec (assets : List ExAsset) : Option Int :=
  assets.foldl minStartStep none

/-- Spec step 2: last_entry is the maximum of the non-absent per-frequency
end values across the assets (absent when no asset has one). -/
def lastEntrySpec (assets : List ExAsset) (data_frequency : String) :
    Option Int :=
  (assets.filterMap (endOf data_frequency)).foldl maxEndStep none

/-- Spec step 3: the effective start, clamped forward to earliest_trade. -/
def effectiveStart (start : Option Int) (earliest_trade : Int) : Int :=
  match start with
  | none => earliest_trade
  | some s => max earliest_trade s

/-- The effective end as the code computes it: the requested end clamped
down to last_entry when last_entry is present, last_entry itself when no
end was requested — and the requested end unchanged when last_entry is
absent. -/
def effectiveEnd (end_ : Option Int) (last_entry : Option Int) : Option Int :=
  match end_, last_entry with
  | none, le => le
  | some e, none => some e
  | some e, some l => some (min e l)

/-- calendar.mdays from the Python standard library. -/
def mdays : List Nat := [0, 31, 28, 31, 30, 31, 30, 31, 31, 30, 31, 30, 31]

/-- calendar.isleap. -/
def isleap (y : Nat) : Bool :=
  y % 4 == 0 && (y % 100 != 0 || y % 400 == 0)

/-- calendar.monthrange(year, month)[1]: the number of days in the month. -/
def monthrange_days (y m : Nat) : Nat :=
  mdays.getD m 0 + (if m = 2 && isleap y then 1 else 0)

/-- A naive Python datetime (all values UTC; pd.to_datetime with utc=True
is the identity on these). -/
structure PyDatetime where
  year : Nat
  month : Nat
  day : Nat
  hour : Nat
  minute : Nat
  second : Nat
  deriving DecidableEq

/-- get_month_start_end: day 1 at 00:00:00 and the month's last day at
23:59:00. -/
def get_month_start_end (dt : PyDatetime) : PyDatetime × PyDatetime :=
  let month_start : PyDatetime := ⟨dt.year, dt.month, 1, 0, 0, 0⟩
  let month_end : PyDatetime :=
    ⟨dt.year, dt.month, monthrange_days dt.year dt.month, 23, 59, 0⟩
  (month_start, month_end)

/-- Calendar validity of an embedded datetime. -/
def validDatetime (d : PyDatetime) : Prop :=
  1 ≤ d.month ∧ d.month ≤ 12 ∧ 1 ≤ d.day ∧
    d.day ≤ monthrange_days d.year d.month ∧
    d.hour ≤ 23 ∧ d.minute ≤ 59 ∧ d.second ≤ 59

instance (d : PyDatetime) : Decidable (validDatetime d) := by
  unfold validDatetime; infer_instance

/-- Same calendar month. -/
def sameMonth (a b : PyDatetime) : Prop :=
  a.year = b.year ∧ a.month = b.month

/-- A strictly monotone numeric key for datetimes (days never exceed 31,
hours 23, minutes and seconds 59). -/
def dtVal (d : PyDatetime) : Nat :=
  ((((d.year * 12 + d.month) * 32 + d.day) * 24 + d.hour) * 60 + d.minute)
    * 60 + d.second

/-! Theorems. -/

/-- C1: the order status derived by _create_order is CANCELLED when the
record marks the order cancel-initiated, else FILLED when the closed
timestamp is present, else OPEN — so the cancellation check takes
priority over the closed check. -/
theorem order_status_derivation (assets : String → String)
    (r : BittrexOrderRecord) :
    (r.CancelInitiated = true →
      ((_create_order assets r).1).status = OrderStatusTag.CANCELLED) ∧
    (r.CancelInitiated = false → r.Closed.isSome = true →
      ((_create_order assets r).1).status = OrderStatusTag.FILLED) ∧
    (r.CancelInitiated = false → r.Closed = none →
      ((_create_order assets r).1).status = OrderStatusTag.OPEN) := by
  refine ⟨fun h => ?_, fun h h2 => ?_, fun h h2 => ?_⟩
  · simp [_create_order, h]
  · simp [_create_order, h, h2]
  · simp [_create_order, h, h2]

/-- Witness for C1 at the surprising input: CancelInitiated true together
with a present Closed timestamp resolves to CANCELLED. -/
theorem order_status_derivation_witness :
    ((⟨true, some "2017-10-02T00:00:00", "2017-10-01T00:00:00", 5, 2,
        "BTC-ETH", some 1, "uuid-1", 0, some 1⟩ :
          BittrexOrderRecord).CancelInitiated = true) ∧
    ((_create_order (fun _ => "eth_btc")
      ⟨true, some "2017-10-02T00:00:00", "2017-10-01T00:00:00", 5, 2,
        "BTC-ETH", some 1, "uuid-1", 0, some 1⟩).1).status
      = OrderStatusTag.CANCELLED :=
  ⟨rfl, (order_status_derivation (fun _ => "eth_btc") _).1 rfl⟩

/-- C6: evaluating get_open_orders on a concrete remote record shows that
each element of the returned list is the full (Order, executed price)
pair produced by _create_order — not a bare Order as the spec requires:
the source appends the unprojected tuple. -/
theorem get_open_orders_elements_are_pairs :
    (get_open_orders (fun _ => "eth_btc") "BTC-ETH"
      (Except.ok [⟨false, none, "2017-10-01T00:00:00", 5, 2, "BTC-ETH",
        some 1, "uuid-1", 0, some 1⟩])).1
    = Except.ok
        [((⟨"2017-10-01T00:00:00", "eth_btc", 5, none, some 1, 5 - 2,
            "uuid-1", some 0, OrderStatusTag.OPEN⟩ : Order), some 1)] := rfl

/-- C7: soft declines (insufficient funds, sub-minimum order value) return
an absent order and no error; any other remote response without an order
id raises CreateOrderError; a style that is neither limit nor stop-limit
raises InvalidOrderStyle with an empty effect trace (no remote call). -/
theorem create_order_decline_taxonomy :
    (∀ (now asset symbol : String) (amount : Rat) (is_buy : Bool)
        (style : OrderStyle),
      isLimitStyle style = true →
      (create_order now asset symbol amount is_buy style
        (Except.ok (BittrexApiResult.str "INSUFFICIENT_FUNDS"))).1
        = some (Except.ok none)) ∧
    (∀ (now asset symbol : String) (amount : Rat) (is_buy : Bool)
        (style : OrderStyle),
      isLimitStyle style = true →
      (create_order now asset symbol amount is_buy style
        (Except.ok
          (BittrexApiResult.str "DUST_TRADE_DISALLOWED_MIN_VALUE_50K_SAT"))).1
        = some (Except.ok none)) ∧
    (∀ (now asset symbol : String) (amount : Rat) (is_buy : Bool)
        (style : OrderStyle) (r : BittrexApiResult),
      isLimitStyle style = true →
      uuidIn r = false →
      r ≠ BittrexApiResult.str "INSUFFICIENT_FUNDS" →
      r ≠ BittrexApiResult.str "DUST_TRADE_DISALLOWED_MIN_VALUE_50K_SAT" →
      (create_order now asset symbol amount is_buy style (Except.ok r)).1
        = some (Except.error
            (ExchangeError.createOrderError "bittrex" r))) ∧
    (∀ (now asset symbol : String) (amount : Rat) (is_buy : Bool)
        (style : OrderStyle) (resp : Except String BittrexApiResult),
      isLimitStyle style = false →
      create_order now asset symbol amount is_buy style resp
        = (some (Except.error (ExchangeError.invalidOrderStyle "bittrex"
            (styleName style))), [])) := by
  refine ⟨?_, ?_, ?_, ?_⟩
  · intro now asset symbol amount is_buy style h
    cases style <;> simp [isLimitStyle] at h <;> rfl
  · intro now asset symbol amount is_buy style h
    cases style <;> simp [isLimitStyle] at h <;> rfl
  · intro now asset symbol amount is_buy style r h h2 h3 h4
    cases style <;> simp [isLimitStyle] at h <;>
      simp [create_order, h2, beq_iff_eq, h3, h4]
  · intro now asset symbol amount is_buy style resp h
    cases style <;> simp [isLimitStyle] at h <;> rfl

/-- Witness for C7: a limit buy whose remote response is the
INSUFFICIENT_FUNDS string yields ok-none (absent order, no error), and a
market-style order is rejected without any effects. -/
theorem create_order_decline_taxonomy_witness :
    (create_order "2017-10-01" "eth_btc" "BTC-ETH" 1 true
      (OrderStyle.limitOrder 2)
      (Except.ok (BittrexApiResult.str "INSUFFICIENT_FUNDS"))).1
      = some (Except.ok none) ∧
    create_order "2017-10-01" "eth_btc" "BTC-ETH" 1 true
      OrderStyle.marketOrder
      (Except.ok (BittrexApiResult.str "INSUFFICIENT_FUNDS"))
      = (some (Except.error (ExchangeError.invalidOrderStyle "bittrex"
          "MarketOrder")), []) :=
  ⟨create_order_decline_taxonomy.1 "2017-10-01" "eth_btc" "BTC-ETH" 1 true
      (OrderStyle.limitOrder 2) rfl,
   create_order_decline_taxonomy.2.2.2 "2017-10-01" "eth_btc" "BTC-ETH" 1
      true OrderStyle.marketOrder
      (Except.ok (BittrexApiResult.str "INSUFFICIENT_FUNDS")) rfl⟩

/-- C10: get_orderbook returns the same value for any two depth arguments
(the caller-supplied limit is never read), and every remote order-book
request it issues carries the fixed depth 100. -/
theorem get_orderbook_ignores_depth (exchange_symbol order_type : String)
    (l1 l2 : Nat) (resp : Except String (List (String × List BookEntry))) :
    get_orderbook exchange_symbol order_type l1 resp
      = get_orderbook exchange_symbol order_type l2 resp ∧
    ((get_orderbook exchange_symbol order_type l1 resp).2.all
      (fun e => match e with
        | Effect.apiGetOrderBook _ _ d => d == 100
        | _ => true)) = true := by
  refine ⟨rfl, ?_⟩
  unfold get_orderbook
  cases translateSide order_type <;> cases resp <;> rfl

/-- Helper: the value and trace of get_candles on a single asset whose
fetch succeeds with an empty message. -/
lemma get_candles_single_ok (data_frequency interval sym : String)
    (fetch : String → Except String GetTicksData) (L : List RawCandle)
    (bar_count : Option Nat) (out : CandlesOut)
    (hfreq : freqToInterval data_frequency = some interval)
    (hfetch : fetch sym = Except.ok ⟨"", L⟩)
    (hproc : processCandles L bar_count = some out) :
    get_candles data_frequency (AssetsArg.single sym) fetch bar_count
      = (some (Except.ok (CandlesResult.forOne out)),
         [Effect.httpGetTicks sym interval]) := by
  simp only [get_candles, get_candles_loop, hfreq, hfetch, hproc,
    List.lookup]
  simp

/-- Helper: a newest-first list read in reverse is sorted by ascending
timestamp. -/
lemma newestFirst_reverse_sorted {L : List RawCandle} (h : newestFirst L) :
    List.Sorted (fun a b : RawCandle => a.T ≤ b.T) L.reverse := by
  have h' : List.Pairwise (fun a b : RawCandle => b.T ≤ a.T) L := h
  exact List.pairwise_reverse.mpr h'

/-- C2 (amended): with bar_count absent, get_candles on a single asset
returns exactly one candle — the LAST element of the remote list, which
for a newest-first remote response is the OLDEST candle (its timestamp is
minimal in the list), not the most recent one. -/
theorem get_candles_no_bar_count_returns_oldest
    (data_frequency interval sym : String)
    (fetch : String → Except String GetTicksData) (L : List RawCandle)
    (hfreq : freqToInterval data_frequency = some interval)
    (hfetch : fetch sym = Except.ok ⟨"", L⟩)
    (hne : L ≠ [])
    (hdesc : newestFirst L) :
    (get_candles data_frequency (AssetsArg.single sym) fetch none).1
      = some (Except.ok (CandlesResult.forOne
          (CandlesOut.single (ohlc_from_candle (L.getLast hne))))) ∧
    (∀ c ∈ L, (L.getLast hne).T ≤ c.T) := by
  have hne' : L.reverse ≠ [] := by simpa using hne
  obtain ⟨c, t, hrev⟩ := List.exists_cons_of_ne_nil hne'
  have hc : c = L.getLast hne := by
    have h1 : L.reverse.head? = some c := by rw [hrev]; rfl
    rw [List.head?_reverse, List.getLast?_eq_getLast L hne] at h1
    exact (Option.some.inj h1).symm
  constructor
  · have hproc : processCandles L none
        = some (CandlesOut.single (ohlc_from_candle (L.getLast hne))) := by
      unfold processCandles
      rw [hrev, hc]
    rw [get_candles_single_ok data_frequency interval sym fetch L none _
      hfreq hfetch hproc]
  · intro c' hc'
    have hs := newestFirst_reverse_sorted hdesc
    rw [hrev] at hs
    have hmem : c' ∈ c :: t := by
      rw [← hrev, List.mem_reverse]; exact hc'
    rcases List.mem_cons.mp hmem with hm | hm
    · rw [hm, hc]
    · rw [← hc]
      exact List.rel_of_pairwise_cons hs hm

/-- Witness for C2's amended statement on a concrete newest-first
two-candle response. -/
theorem get_candles_no_bar_count_returns_oldest_witness :
    freqToInterval "minute" = some "oneMin" ∧
    newestFirst [⟨1, 1, 1, 1, 1, 2⟩, ⟨3, 3, 3, 3, 3, 1⟩] ∧
    ((get_candles "minute" (AssetsArg.single "btc")
        (fun _ => Except.ok ⟨"", [⟨1, 1, 1, 1, 1, 2⟩, ⟨3, 3, 3, 3, 3, 1⟩]⟩)
        none).1
      = some (Except.ok (CandlesResult.forOne (CandlesOut.single
          (ohlc_from_candle
            (([⟨1, 1, 1, 1, 1, 2⟩, ⟨3, 3, 3, 3, 3, 1⟩] :
              List RawCandle).getLast (by decide)))))) ∧
      ∀ c ∈ ([⟨1, 1, 1, 1, 1, 2⟩, ⟨3, 3, 3, 3, 3, 1⟩] : List RawCandle),
        (([⟨1, 1, 1, 1, 1, 2⟩, ⟨3, 3, 3, 3, 3, 1⟩] :
          List RawCandle).getLast (by decide)).T ≤ c.T) :=
  ⟨rfl, by decide,
    get_candles_no_bar_count_returns_oldest "minute" "oneMin" "btc"
      (fun _ => Except.ok ⟨"", [⟨1, 1, 1, 1, 1, 2⟩, ⟨3, 3, 3, 3, 3, 1⟩]⟩)
      [⟨1, 1, 1, 1, 1, 2⟩, ⟨3, 3, 3, 3, 3, 1⟩] rfl rfl (by decide)
      (by decide)⟩

/-- Counterexample to C2 as stated: on a newest-first response whose two
candles close at 1 and 3, the single returned bar is built from the
candle with timestamp 1 even though the list contains a (more recent)
candle with timestamp 2 — the most-recent candle is NOT returned. -/
theorem get_candles_no_bar_count_not_most_recent :
    newestFirst [⟨1, 1, 1, 1, 1, 2⟩, ⟨3, 3, 3, 3, 3, 1⟩] ∧
    (⟨1, 1, 1, 1, 1, 2⟩ : RawCandle)
      ∈ ([⟨1, 1, 1, 1, 1, 2⟩, ⟨3, 3, 3, 3, 3, 1⟩] : List RawCandle) ∧
    (get_candles "minute" (AssetsArg.single "btc")
      (fun _ => Except.ok ⟨"", [⟨1, 1, 1, 1, 1, 2⟩, ⟨3, 3, 3, 3, 3, 1⟩]⟩)
      none).1
      = some (Except.ok (CandlesResult.forOne (CandlesOut.single
          (ohlc_from_candle ⟨3, 3, 3, 3, 3, 1⟩)))) ∧
    (ohlc_from_candle (⟨3, 3, 3, 3, 3, 1⟩ : RawCandle)).last_traded
      < (⟨1, 1, 1, 1, 1, 2⟩ : RawCandle).T := by
  refine ⟨by decide, by decide, by decide, by decide⟩

/-- C8: with bar_count k, get_candles on a single asset reverses the
newest-first remote list and takes the first k entries: the result is the
min(k, n) oldest candles in ascending time order (every taken candle is
no newer than every dropped one). -/
theorem get_candles_bar_count_oldest_ascending
    (data_frequency interval sym : String)
    (fetch : String → Except String GetTicksData) (L : List RawCandle)
    (k : Nat)
    (hfreq : freqToInterval data_frequency = some interval)
    (hfetch : fetch sym = Except.ok ⟨"", L⟩)
    (hdesc : newestFirst L) :
    (get_candles data_frequency (AssetsArg.single sym) fetch (some k)).1
      = some (Except.ok (CandlesResult.forOne (CandlesOut.bars
          ((L.reverse.take k).map ohlc_from_candle)))) ∧
    (L.reverse.take k).length = min k L.length ∧
    List.Sorted (fun a b : RawCandle => a.T ≤ b.T) (L.reverse.take k) ∧
    (∀ x ∈ L.reverse.take k, ∀ y ∈ L.reverse.drop k, x.T ≤ y.T) := by
  have hs := newestFirst_reverse_sorted hdesc
  refine ⟨?_, ?_, ?_, ?_⟩
  · rw [get_candles_single_ok data_frequency interval sym fetch L (some k) _
      hfreq hfetch rfl]
  · rw [List.length_take, List.length_reverse]
  · exact List.Pairwise.sublist (List.take_sublist k L.reverse) hs
  · intro x hx y hy
    exact List.Sorted.rel_of_mem_take_of_mem_drop hs hx hy

/-- Witness for C8: a newest-first response of 5 candles with bar_count 3
yields the 3 oldest candles, oldest-first. -/
theorem get_candles_bar_count_oldest_ascending_witness :
    freqToInterval "minute" = some "oneMin" ∧
    newestFirst [⟨5, 5, 5, 5, 5, 5⟩, ⟨4, 4, 4, 4, 4, 4⟩, ⟨3, 3, 3, 3, 3, 3⟩,
      ⟨2, 2, 2, 2, 2, 2⟩, ⟨1, 1, 1, 1, 1, 1⟩] ∧
    (get_candles "minute" (AssetsArg.single "btc")
      (fun _ => Except.ok ⟨"", [⟨5, 5, 5, 5, 5, 5⟩, ⟨4, 4, 4, 4, 4, 4⟩,
        ⟨3, 3, 3, 3, 3, 3⟩, ⟨2, 2, 2, 2, 2, 2⟩, ⟨1, 1, 1, 1, 1, 1⟩]⟩)
      (some 3)).1
      = some (Except.ok (CandlesResult.forOne (CandlesOut.bars
          [ohlc_from_candle ⟨1, 1, 1, 1, 1, 1⟩,
           ohlc_from_candle ⟨2, 2, 2, 2, 2, 2⟩,
           ohlc_from_candle ⟨3, 3, 3, 3, 3, 3⟩]))) :=
  ⟨rfl, by decide, by
    have h := get_candles_bar_count_oldest_ascending "minute" "oneMin" "btc"
      (fun _ => Except.ok ⟨"", [⟨5, 5, 5, 5, 5, 5⟩, ⟨4, 4, 4, 4, 4, 4⟩,
        ⟨3, 3, 3, 3, 3, 3⟩, ⟨2, 2, 2, 2, 2, 2⟩, ⟨1, 1, 1, 1, 1, 1⟩]⟩)
      [⟨5, 5, 5, 5, 5, 5⟩, ⟨4, 4, 4, 4, 4, 4⟩, ⟨3, 3, 3, 3, 3, 3⟩,
        ⟨2, 2, 2, 2, 2, 2⟩, ⟨1, 1, 1, 1, 1, 1⟩] 3 rfl rfl (by decide)
    rw [h.1]; decide⟩

/-- Helper: the tickers loop acquires the rate limiter before each remote
ticker request, whatever state the scan starts in. -/
lemma tickers_rateLimited (now : String)
    (fetch : String → Except String TickerRec) :
    ∀ (syms : List String) (b : Bool),
      rateLimited b (tickers now fetch syms).2 = true := by
  intro syms
  induction syms with
  | nil => intro b; rfl
  | cons s rest ih =>
    intro b
    show rateLimited b (tickers now fetch (s :: rest)).2 = true
    unfold tickers
    cases hf : fetch s with
    | error e => rfl
    | ok t =>
      cases hrec : tickers now fetch rest with
      | mk res tr =>
        have htr : rateLimited true tr = true := by
          have := ih true
          rw [hrec] at this
          exact this
        cases res <;> simp [rateLimited, htr]

/-- Helper: the get_candles per-asset loop never acquires the rate
limiter. -/
lemma get_candles_loop_no_ask (interval : String)
    (fetch : String → Except String GetTicksData) (bar_count : Option Nat) :
    ∀ syms : List String,
      hasAsk (get_candles_loop interval fetch bar_count syms).2 = false := by
  intro syms
  induction syms with
  | nil => rfl
  | cons s rest ih =>
    show hasAsk (get_candles_loop interval fetch bar_count (s :: rest)).2
      = false
    unfold get_candles_loop
    cases hf : fetch s with
    | error e => rfl
    | ok data =>
      dsimp only
      by_cases hm : data.message = ""
      · rw [if_pos hm]
        cases hp : processCandles data.result bar_count with
        | none => rfl
        | some out =>
          dsimp only
          cases hrec : get_candles_loop interval fetch bar_count rest with
          | mk res tr =>
            have htr : hasAsk tr = false := by
              have h2 := ih
              rw [hrec] at h2
              exact h2
            rcases res with _ | r
            · simpa [hasAsk] using htr
            · rcases r with e | acc <;> simpa [hasAsk] using htr
      · rw [if_neg hm]; rfl

/-- C3 (amended): get_balances, create_order, get_open_orders, get_order,
cancel_order and tickers all acquire the rate limiter before every remote
request they issue, but get_candles and get_orderbook issue their remote
requests without ever invoking the rate limiter. -/
theorem rate_limiter_called_except_candles_and_orderbook :
    (∀ resp, rateLimited false (get_balances resp).2 = true) ∧
    (∀ (now asset symbol : String) (amount : Rat) (is_buy : Bool)
        (style : OrderStyle) (resp : Except String BittrexApiResult),
      rateLimited false
        (create_order now asset symbol amount is_buy style resp).2 = true) ∧
    (∀ assets symbol resp,
      rateLimited false (get_open_orders assets symbol resp).2 = true) ∧
    (∀ assets order_id resp,
      rateLimited false (get_order assets order_id resp).2 = true) ∧
    (∀ order_param resp,
      rateLimited false (cancel_order order_param resp).2 = true) ∧
    (∀ now fetch syms, rateLimited false (tickers now fetch syms).2 = true) ∧
    (∀ data_frequency assets fetch bar_count,
      hasAsk (get_candles data_frequency assets fetch bar_count).2
        = false) ∧
    (∀ exchange_symbol order_type limit resp,
      hasAsk (get_orderbook exchange_symbol order_type limit resp).2
        = false) := by
  refine ⟨?_, ?_, ?_, ?_, ?_, ?_, ?_, ?_⟩
  · intro resp; cases resp <;> rfl
  · intro now asset symbol amount is_buy style resp
    cases style
    case marketOrder => rfl
    all_goals cases resp
    all_goals simp only [create_order]
    all_goals repeat' split
    all_goals cases is_buy <;> rfl
  · intro assets symbol resp; cases resp <;> rfl
  · intro assets order_id resp
    rcases resp with e | r
    · rfl
    · cases r <;> rfl
  · intro order_param resp
    rcases resp with e | r
    · rfl
    · cases r <;> rfl
  · exact fun now fetch syms => tickers_rateLimited now fetch syms false
  · intro data_frequency assets fetch bar_count
    unfold get_candles
    cases hfi : freqToInterval data_frequency with
    | none => rfl
    | some interval =>
      dsimp only
      cases assets with
      | single s =>
        dsimp only
        cases hloop : get_candles_loop interval fetch bar_count [s] with
        | mk res tr =>
          have htr : hasAsk tr = false := by
            have h2 := get_candles_loop_no_ask interval fetch bar_count [s]
            rw [hloop] at h2
            exact h2
          rcases res with _ | r
          · exact htr
          · rcases r with e | m
            · exact htr
            · dsimp only
              cases List.lookup s m <;> exact htr
      | multiple ss =>
        dsimp only
        cases hloop : get_candles_loop interval fetch bar_count ss with
        | mk res tr =>
          have htr : hasAsk tr = false := by
            have h2 := get_candles_loop_no_ask interval fetch bar_count ss
            rw [hloop] at h2
            exact h2
          rcases res with _ | r
          · exact htr
          · rcases r with e | m <;> exact htr
  · intro exchange_symbol order_type limit resp
    unfold get_orderbook
    cases translateSide order_type <;> cases resp <;> rfl

/-- Counterexample to C3 as stated: a concrete get_candles call issues
its HTTP request with no rate-limiter acquisition anywhere in its trace,
and likewise a concrete get_orderbook call; the before-each-remote-call
scan rejects both traces. -/
theorem rate_limiter_skipped_by_candles_and_orderbook :
    (get_candles "minute" (AssetsArg.single "btc")
      (fun _ => Except.ok ⟨"", [⟨1, 1, 1, 1, 1, 1⟩]⟩) none).2
      = [Effect.httpGetTicks "btc" "oneMin"] ∧
    rateLimited false [Effect.httpGetTicks "btc" "oneMin"] = false ∧
    (get_orderbook "BTC-ETH" "all" 5 (Except.ok [])).2
      = [Effect.apiGetOrderBook "BTC-ETH" "both" 100] ∧
    rateLimited false [Effect.apiGetOrderBook "BTC-ETH" "both" 100]
      = false := by
  refine ⟨by decide, by decide, by decide, by decide⟩

/-- C4 (amended): safe_extract checks every entry before anything is
extracted.  If any entry's joined path fails the commonprefix containment
check it raises and extracts nothing; when it extracts, every entry
passed the check and exactly the joined member paths are written.  (The
implemented check is a character-prefix comparison of normalized paths,
which is weaker than the spec's descendant relation: see the
counterexample.) -/
theorem safe_extract_checks_all_before_writing :
    (∀ (path : String) (members : List String),
      (∃ m, m ∈ members ∧
        is_within_directory path (joinPath path m) = false) →
      safe_extract path members
        = Except.error "Attempted Path Traversal in Tar File") ∧
    (∀ (path : String) (members : List String) (ws : List String),
      safe_extract path members = Except.ok ws →
      (∀ m ∈ members,
        is_within_directory path (joinPath path m) = true) ∧
      ws = members.map (joinPath path)) := by
  constructor
  · intro path members ⟨m, hmem, hbad⟩
    unfold safe_extract
    rw [if_neg]
    intro hall
    rw [List.all_eq_true] at hall
    have := hall m hmem
    rw [hbad] at this
    exact Bool.false_ne_true this
  · intro path members ws hok
    unfold safe_extract at hok
    by_cases hall : members.all
        (fun m => is_within_directory path (joinPath path m)) = true
    · rw [if_pos hall] at hok
      refine ⟨fun m hm => ?_, (Except.ok.inj hok).symm⟩
      rw [List.all_eq_true] at hall
      exact hall m hm
    · rw [if_neg hall] at hok
      exact absurd hok (fun h => Except.noConfusion h)

/-- Witness for C4's amended statement: an archive entry named ../../evil
resolves outside the destination, fails the check, and extraction raises
(writing nothing). -/
theorem safe_extract_checks_all_before_writing_witness :
    is_within_directory "/data/bundle"
        (joinPath "/data/bundle" "../../evil") = false ∧
    abspath (joinPath "/data/bundle" "../../evil") = "/evil" ∧
    safe_extract "/data/bundle" ["../../evil"]
      = Except.error "Attempted Path Traversal in Tar File" :=
  ⟨by decide, by decide,
    safe_extract_checks_all_before_writing.1 "/data/bundle" ["../../evil"]
      ⟨"../../evil", by decide, by decide⟩⟩

/-- Counterexample to C4 as stated: for destination /a/b, the entry
../bc/evil resolves to /a/bc/evil — NOT a descendant of /a/b — yet the
commonprefix check accepts it (because the string /a/b is a character
prefix of /a/bc/evil), so safe_extract raises nothing and extracts the
entry, writing outside the destination directory. -/
theorem safe_extract_misses_sibling_prefix_escape :
    abspath (joinPath "/a/b" "../bc/evil") = "/a/bc/evil" ∧
    isDescendantOf "/a/b" (joinPath "/a/b" "../bc/evil") = false ∧
    is_within_directory "/a/b" (joinPath "/a/b" "../bc/evil") = true ∧
    safe_extract "/a/b" ["../bc/evil"]
      = Except.ok ["/a/b/../bc/evil"] := by
  refine ⟨by decide, by decide, by decide, by decide⟩

/-- Helper: one get_adj_dates loop step is the product of the running
minimum of start dates and the running maximum of present end values. -/
lemma adjFold_eq (data_frequency : String) (acc : Option Int × Option Int)
    (a : ExAsset) :
    adjFold data_frequency acc a
      = (minStartStep acc.1 a,
         match endOf data_frequency a with
         | none => acc.2
         | some v => maxEndStep acc.2 v) := by
  rcases acc with ⟨e, l⟩
  unfold adjFold minStartStep maxEndStep endOf
  dsimp only
  refine Prod.ext ?_ ?_
  · cases e with
    | none => rfl
    | some ev =>
      dsimp only
      rcases le_or_lt ev a.start_date with h | h
      · rw [if_neg (not_lt.mpr h), min_eq_left h]
      · rw [if_pos h, min_eq_right (le_of_lt h)]
  · cases hx : (if data_frequency = "minute"
        then a.end_minute else a.end_daily) with
    | none => rfl
    | some v =>
      cases l with
      | none => rfl
      | some l0 =>
        dsimp only
        rcases le_or_lt v l0 with h | h
        · rw [if_neg (not_lt.mpr h), max_eq_left h]
        · rw [if_pos h, max_eq_right (le_of_lt h)]

/-- Helper: the get_adj_dates loop computes the componentwise folds. -/
lemma foldl_adjFold (data_frequency : String) :
    ∀ (l : List ExAsset) (acc : Option Int × Option Int),
      l.foldl (adjFold data_frequency) acc
        = (l.foldl minStartStep acc.1,
           (l.filterMap (endOf data_frequency)).foldl maxEndStep acc.2) := by
  intro l
  induction l with
  | nil => intro acc; rfl
  | cons a t ih =>
    intro acc
    rw [List.foldl_cons, adjFold_eq, ih]
    cases h : endOf data_frequency a <;> simp [List.filterMap_cons, h]

/-- Helper: folding the running minimum from a present value stays
present. -/
lemma foldl_minStartStep_some :
    ∀ (t : List ExAsset) (x : Int),
      ∃ y, t.foldl minStartStep (some x) = some y := by
  intro t
  induction t with
  | nil => intro x; exact ⟨x, rfl⟩
  | cons a t ih =>
    intro x
    show ∃ y, t.foldl minStartStep (minStartStep (some x) a) = some y
    exact ih (min x a.start_date)

/-- Helper: a non-empty asset list always has an earliest trade date. -/
lemma earliestTradeSpec_ne_none (assets : List ExAsset)
    (h : assets ≠ []) : ∃ e, earliestTradeSpec assets = some e := by
  cases assets with
  | nil => exact absurd rfl h
  | cons a t =>
    show ∃ e, t.foldl minStartStep (minStartStep none a) = some e
    exact foldl_minStartStep_some t a.start_date

/-- Helper: get_adj_dates in closed form over the spec-side earliest
trade date, last entry, effective start and effective end. -/
lemma get_adj_dates_closed_form (start end_ : Option Int)
    (assets : List ExAsset) (data_frequency : String) (h : assets ≠ [])
    (earliest : Int) (he : earliestTradeSpec assets = some earliest) :
    get_adj_dates start end_ assets data_frequency
      = some (match effectiveEnd end_
            (lastEntrySpec assets data_frequency) with
          | none => Except.error ⟨(assets.getLast h).exchange,
              [(assets.getLast h).symbol], data_frequency⟩
          | some e2 =>
            if effectiveStart start earliest ≥ e2
            then Except.error ⟨(assets.getLast h).exchange,
              [(assets.getLast h).symbol], data_frequency⟩
            else Except.ok (effectiveStart start earliest, e2)) := by
  unfold get_adj_dates
  rw [List.getLast?_eq_getLast assets h]
  dsimp only
  rw [foldl_adjFold data_frequency assets (none, none)]
  dsimp only
  rw [show assets.foldl minStartStep none = earliestTradeSpec assets
    from rfl]
  rw [show (assets.filterMap (endOf data_frequency)).foldl maxEndStep none
    = lastEntrySpec assets data_frequency from rfl]
  rw [he]
  dsimp only
  have hstart : (match start with
      | none => earliest
      | some s => if earliest > s then earliest else s)
      = effectiveStart start earliest := by
    cases start with
    | none => rfl
    | some s =>
      show (if earliest > s then earliest else s) = max earliest s
      rcases le_or_lt earliest s with hc | hc
      · rw [if_neg (not_lt.mpr hc), max_eq_right hc]
      · rw [if_pos hc, max_eq_left (le_of_lt hc)]
  have hend : (match end_ with
      | none => lastEntrySpec assets data_frequency
      | some e => match lastEntrySpec assets data_frequency with
        | none => some e
        | some l => if e > l then some l else some e)
      = effectiveEnd end_ (lastEntrySpec assets data_frequency) := by
    cases end_ with
    | none => cases lastEntrySpec assets data_frequency <;> rfl
    | some e =>
      cases lastEntrySpec assets data_frequency with
      | none => rfl
      | some l =>
        show (if e > l then some l else some e) = some (min e l)
        rcases le_or_lt e l with hc | hc
        · rw [if_neg (not_lt.mpr hc), min_eq_left hc]
        · rw [if_pos hc, min_eq_right (le_of_lt hc)]
  rw [hstart, hend]
  cases effectiveEnd end_ (lastEntrySpec assets data_frequency) with
  | none => rfl
  | some e2 =>
    dsimp only
    split_ifs <;> rfl

/-- C5 (amended): for a non-empty asset list, get_adj_dates raises
NoDataAvailableOnExchange iff the effective end is absent (no end
requested and no asset has an end value) or the effective start is at
least the effective end; otherwise it returns exactly (effective start,
effective end).  In particular — contrary to the claim — an absent
last_entry alone does not force an error: a requested end survives
unclamped when no asset has an end value. -/
theorem get_adj_dates_error_iff (start end_ : Option Int)
    (assets : List ExAsset) (data_frequency : String) (h : assets ≠ []) :
    ∃ earliest, earliestTradeSpec assets = some earliest ∧
      ((∃ err, get_adj_dates start end_ assets data_frequency
          = some (Except.error err)) ↔
        (effectiveEnd end_ (lastEntrySpec assets data_frequency) = none ∨
         ∃ v, effectiveEnd end_ (lastEntrySpec assets data_frequency)
              = some v ∧
           effectiveStart start earliest ≥ v)) ∧
      (∀ v, effectiveEnd end_ (lastEntrySpec assets data_frequency)
          = some v →
        effectiveStart start earliest < v →
        get_adj_dates start end_ assets data_frequency
          = some (Except.ok (effectiveStart start earliest, v))) := by
  obtain ⟨earliest, he⟩ := earliestTradeSpec_ne_none assets h
  refine ⟨earliest, he, ?_, ?_⟩
  · rw [get_adj_dates_closed_form start end_ assets data_frequency h
      earliest he]
    cases hee : effectiveEnd end_ (lastEntrySpec assets data_frequency) with
    | none =>
      constructor
      · intro _; exact Or.inl rfl
      · intro _; exact ⟨_, rfl⟩
    | some v =>
      dsimp only
      split_ifs with hge
      · constructor
        · intro _; exact Or.inr ⟨v, rfl, hge⟩
        · intro _; exact ⟨_, rfl⟩
      · constructor
        · rintro ⟨err, herr⟩
          exact Except.noConfusion (Option.some.inj herr)
        · rintro (hnone | ⟨v2, hv2, hge2⟩)
          · exact hnone.elim
          · have := Option.some.inj hv2
            omega
  · intro v hv hlt
    rw [get_adj_dates_closed_form start end_ assets data_frequency h
      earliest he, hv]
    dsimp only
    rw [if_neg (not_le.mpr hlt)]

/-- Witness for C5's amended statement on a concrete asset with a daily
end value: the window resolves to (earliest start, that end). -/
theorem get_adj_dates_error_iff_witness :
    ([⟨0, some 100, none, "eth_btc", "bittrex"⟩] : List ExAsset) ≠ [] ∧
    (∃ earliest,
      earliestTradeSpec [⟨0, some 100, none, "eth_btc", "bittrex"⟩]
        = some earliest ∧
      ((∃ err, get_adj_dates none none
          [⟨0, some 100, none, "eth_btc", "bittrex"⟩] "daily"
          = some (Except.error err)) ↔
        (effectiveEnd none (lastEntrySpec
            [⟨0, some 100, none, "eth_btc", "bittrex"⟩] "daily") = none ∨
         ∃ v, effectiveEnd none (lastEntrySpec
            [⟨0, some 100, none, "eth_btc", "bittrex"⟩] "daily")
              = some v ∧
           effectiveStart none earliest ≥ v)) ∧
      (∀ v, effectiveEnd none (lastEntrySpec
          [⟨0, some 100, none, "eth_btc", "bittrex"⟩] "daily")
          = some v →
        effectiveStart none earliest < v →
        get_adj_dates none none
          [⟨0, some 100, none, "eth_btc", "bittrex"⟩] "daily"
          = some (Except.ok (effectiveStart none earliest, v)))) ∧
    get_adj_dates none none [⟨0, some 100, none, "eth_btc", "bittrex"⟩]
      "daily" = some (Except.ok (0, 100)) :=
  ⟨by decide,
   get_adj_dates_error_iff none none
     [⟨0, some 100, none, "eth_btc", "bittrex"⟩] "daily" (by decide),
   by decide⟩

/-- Counterexample to C5 as stated: with a single asset having no end
value at all (last_entry absent) but a requested end of 10, get_adj_dates
does NOT raise — it returns (0, 10) — although the claim requires
NoDataAvailableError whenever last_entry is absent. -/
theorem get_adj_dates_ok_despite_absent_last_entry :
    lastEntrySpec [⟨0, none, none, "eth_btc", "bittrex"⟩] "daily" = none ∧
    get_adj_dates none (some 10) [⟨0, none, none, "eth_btc", "bittrex"⟩]
      "daily" = some (Except.ok (0, 10)) ∧
    ¬ ∃ err, get_adj_dates none (some 10)
      [⟨0, none, none, "eth_btc", "bittrex"⟩] "daily"
      = some (Except.error err) := by
  refine ⟨by decide, by decide, ?_⟩
  rintro ⟨err, herr⟩
  rw [show get_adj_dates none (some 10)
      [⟨0, none, none, "eth_btc", "bittrex"⟩] "daily"
      = some (Except.ok (0, 10)) from by decide] at herr
  exact Except.noConfusion (Option.some.inj herr)

/-- Helper: every month between 1 and 12 has at least one day. -/
lemma monthrange_days_pos (y m : Nat) (h1 : 1 ≤ m) (h2 : m ≤ 12) :
    1 ≤ monthrange_days y m := by
  unfold monthrange_days mdays
  interval_cases m <;> simp <;> omega

/-- C9: get_month_start_end maps an instant to the first instant of its
calendar month (day 1, 00:00:00) — minimal among all valid instants of
that month — and to a last instant on the month's final day fixed at
23:59:00 (second 0, not 59); in particular 2021-02-15 maps to
(2021-02-01T00:00:00, 2021-02-28T23:59:00). -/
theorem month_bounds_first_and_last :
    (∀ dt : PyDatetime, validDatetime dt →
      sameMonth (get_month_start_end dt).1 dt ∧
      validDatetime (get_month_start_end dt).1 ∧
      (∀ u, validDatetime u → sameMonth u dt →
        dtVal (get_month_start_end dt).1 ≤ dtVal u) ∧
      sameMonth (get_month_start_end dt).2 dt ∧
      validDatetime (get_month_start_end dt).2 ∧
      (get_month_start_end dt).2.day = monthrange_days dt.year dt.month ∧
      (∀ u, validDatetime u → sameMonth u dt →
        u.day ≤ (get_month_start_end dt).2.day) ∧
      (get_month_start_end dt).2.hour = 23 ∧
      (get_month_start_end dt).2.minute = 59 ∧
      (get_month_start_end dt).2.second = 0) ∧
    get_month_start_end ⟨2021, 2, 15, 10, 30, 5⟩
      = (⟨2021, 2, 1, 0, 0, 0⟩, ⟨2021, 2, 28, 23, 59, 0⟩) := by
  constructor
  · intro dt hdt
    obtain ⟨hm1, hm2, _hd1, _hd2, _hh, _hmin, _hsec⟩ := hdt
    have hpos : 1 ≤ monthrange_days dt.year dt.month :=
      monthrange_days_pos _ _ hm1 hm2
    refine ⟨⟨rfl, rfl⟩, ?_, ?_, ⟨rfl, rfl⟩, ?_, rfl, ?_, rfl, rfl, rfl⟩
    · exact (⟨hm1, hm2, le_refl 1, hpos, Nat.zero_le 23, Nat.zero_le 59,
        Nat.zero_le 59⟩ : validDatetime ⟨dt.year, dt.month, 1, 0, 0, 0⟩)
    · intro u hu hsm
      obtain ⟨_um1, _um2, ud1, _ud2, _uh, _umin, _usec⟩ := hu
      obtain ⟨hy, hm⟩ := hsm
      unfold dtVal get_month_start_end
      dsimp only
      omega
    · exact (⟨hm1, hm2, hpos, le_refl _, Nat.le_refl 23, Nat.le_refl 59,
        Nat.zero_le 59⟩ : validDatetime ⟨dt.year, dt.month,
          monthrange_days dt.year dt.month, 23, 59, 0⟩)
    · intro u hu hsm
      obtain ⟨_um1, _um2, _ud1, ud2, _uh, _umin, _usec⟩ := hu
      obtain ⟨hy, hm⟩ := hsm
      show u.day ≤ monthrange_days dt.year dt.month
      rw [← hy, ← hm]
      exact ud2
  · decide

/-- Witness for C9 at 2021-02-15T10:30:05: February 2021 has bounds
2021-02-01T00:00:00 and 2021-02-28T23:59:00. -/
theorem month_bounds_first_and_last_witness :
    validDatetime ⟨2021, 2, 15, 10, 30, 5⟩ ∧
    (sameMonth (get_month_start_end ⟨2021, 2, 15, 10, 30, 5⟩).1
        ⟨2021, 2, 15, 10, 30, 5⟩ ∧
      validDatetime (get_month_start_end ⟨2021, 2, 15, 10, 30, 5⟩).1 ∧
      (∀ u, validDatetime u → sameMonth u ⟨2021, 2, 15, 10, 30, 5⟩ →
        dtVal (get_month_start_end ⟨2021, 2, 15, 10, 30, 5⟩).1 ≤ dtVal u) ∧
      sameMonth (get_month_start_end ⟨2021, 2, 15, 10, 30, 5⟩).2
        ⟨2021, 2, 15, 10, 30, 5⟩ ∧
      validDatetime (get_month_start_end ⟨2021, 2, 15, 10, 30, 5⟩).2 ∧
      (get_month_start_end ⟨2021, 2, 15, 10, 30, 5⟩).2.day
        = monthrange_days 2021 2 ∧
      (∀ u, validDatetime u → sameMonth u ⟨2021, 2, 15, 10, 30, 5⟩ →
        u.day ≤ (get_month_start_end ⟨2021, 2, 15, 10, 30, 5⟩).2.day) ∧
      (get_month_start_end ⟨2021, 2, 15, 10, 30, 5⟩).2.hour = 23 ∧
      (get_month_start_end ⟨2021, 2, 15, 10, 30, 5⟩).2.minute = 59 ∧
      (get_month_start_end ⟨2021, 2, 15, 10, 30, 5⟩).2.second = 0) :=
  ⟨by decide, month_bounds_first_and_last.1 ⟨2021, 2, 15, 10, 30, 5⟩
    (by decide)⟩

end Catalyst
